import Mathlib

/-!
Verification of the stat-progression engine of the RPG_game repository
(`player_files/player_stats/stat_base_classes.py`, `tools/number_utils.py`,
`game/player_files/player_stats/stat_types.py`).

Modelling conventions:
* Python integers are modelled as `ℤ`.
* Python `//` and `%` are only applied with the positive literal divisor 100,
  where they agree with Lean's `Int` division and modulus (`Int.ediv` /
  `Int.emod`), so those are used directly.
* Python float arithmetic (the `/ 99`, `** 2`, `* 1.1` and `/ 5` operations of
  the curve and of the derived-stat formula, and `math.log10`) is modelled as
  exact rational arithmetic over `ℚ`; `int(...)` is truncation toward zero
  (`pyInt`), `math.ceil` is `Int.ceil`, `math.floor`-like behaviour of
  `int` on the nonnegative values arising here coincides with `Int.floor`.
* A Python method that can raise is modelled in `Except String`; a method
  that always returns normally yields `Except.ok`.
* The `while` loop of `SubStats.check_and_level_up` is modelled by the
  recursion `level_up_go` over an explicit iteration bound; the bound
  `exp.toNat + 1` is proved sufficient on well-formed states (each iteration
  removes at least one point of experience once the stored requirement is
  positive, and every recomputed requirement is at least 10), see
  `level_up_go_spec`.
* The dataclass-reflection discovery of sub-stat fields and the `getattr`
  access to derived physical fields are modelled by association lists
  (`substats`, `physicals`) keyed by the Python attribute names.
-/

/-- Python's `int(...)` applied to a rational: truncation toward zero. -/
def pyInt (q : ℚ) : ℤ := if 0 ≤ q then ⌊q⌋ else -⌊-q⌋

/-- The `StatClasses` enum of `stat_base_classes.py`. -/
inductive StatClasses where
  | STRENGTH
  | SPEED
  | DURABILITY
  | INTELLIGENCE
  | MAGIC
deriving DecidableEq, Repr

/-- `StatClasses.capability_measure_helper`: measurement unit per stat class. -/
def StatClasses.capability_measure_helper : StatClasses → String
  | .STRENGTH => "Lb"
  | .SPEED => "Kmph"
  | .DURABILITY => "Lbf"
  | .INTELLIGENCE => "IQ"
  | .MAGIC => "MU"

/-- The `SubStats` dataclass of `stat_base_classes.py`. -/
structure SubStats where
  main_stat : StatClasses
  name : String
  capability_multi : ℤ
  measurement : String
  level : ℤ
  exp : ℤ
  training_zone : String
  exp_to_next_level : ℤ
deriving DecidableEq, Repr

/-- Construction of a `SubStats` with the dataclass defaults
(`level = 1`, `exp = 0`, `exp_to_next_level = 10`, `capability_multi = 1`)
followed by `__post_init__`, which sets `measurement` from `main_stat`. -/
def mk_sub_stats (ms : StatClasses) (nm : String) : SubStats :=
  { main_stat := ms
    name := nm
    capability_multi := 1
    measurement := ms.capability_measure_helper
    level := 1
    exp := 0
    training_zone := ""
    exp_to_next_level := 10 }

/-- `SubStats.add_exp`: unconditionally adds the amount to `exp`.
The source performs no validation of the amount. -/
def SubStats.add_exp (s : SubStats) (e : ℤ) : SubStats :=
  { s with exp := s.exp + e }

/-- The `start_exp` selected by `compute_exp_requirement` for block `b`
(the `if b == 0` branch of the source). For `b ≥ 1` the source computes
`50000 * (250 ** (b - 1))` with a nonnegative exponent, rendered here with
`Int.toNat`; the claims under verification only evaluate the function at
levels `L ≥ 1`, where `b ≥ 0`. -/
def start_exp_of (b : ℤ) : ℤ :=
  if b = 0 then 10 else 50000 * 250 ^ (b - 1).toNat

/-- The `end_exp` selected by `compute_exp_requirement` for block `b`. -/
def end_exp_of (b : ℤ) : ℤ :=
  if b = 0 then 50000 else 50000 * 250 ^ b.toNat

/-- The quadratic interpolant `start_exp + ((i / 99) ** 2) * (end_exp - start_exp)`
computed by `compute_exp_requirement` at level `L`, as an exact rational,
with `b = (L - 1) // 100` and `i = (L - 1) % 100`. -/
def exp_req_q (L : ℤ) : ℚ :=
  (start_exp_of ((L - 1) / 100) : ℚ) +
    ((((L - 1) % 100 : ℤ) : ℚ) / 99) ^ 2 *
      ((end_exp_of ((L - 1) / 100) : ℚ) - (start_exp_of ((L - 1) / 100) : ℚ))

/-- `SubStats.compute_exp_requirement` as a function of the level it reads:
the interpolant passed through Python's `int(...)`. -/
def exp_requirement_at (L : ℤ) : ℤ := pyInt (exp_req_q L)

/-- The method `SubStats.compute_exp_requirement`, reading `self.level`. -/
def SubStats.compute_exp_requirement (s : SubStats) : ℤ :=
  exp_requirement_at s.level

/-- One-step unfolding of the `while` loop of `SubStats.check_and_level_up`:
if `exp >= exp_to_next_level`, deduct the threshold, recompute
`exp_to_next_level` via `compute_exp_requirement` (note: the source performs
this read of `self.level` BEFORE incrementing the level), then increment the
level and continue; otherwise stop. `fuel` bounds the number of iterations. -/
def level_up_go : ℕ → SubStats → Bool → SubStats × Bool
  | 0, s, leveled => (s, leveled)
  | fuel + 1, s, leveled =>
    if s.exp_to_next_level ≤ s.exp then
      level_up_go fuel
        { s with
          exp := s.exp - s.exp_to_next_level
          exp_to_next_level := exp_requirement_at s.level
          level := s.level + 1 }
        true
    else (s, leveled)

/-- `SubStats.check_and_level_up`: runs the loop with the proven-sufficient
iteration bound `exp.toNat + 1` and reports whether any level-up occurred. -/
def SubStats.check_and_level_up (s : SubStats) : SubStats × Bool :=
  level_up_go (s.exp.toNat + 1) s false

/-- One training round on a sub-stat: an `add_exp` deposit followed by
`check_and_level_up`, keeping the resulting state. -/
def sub_train_step (s : SubStats) (a : ℤ) : SubStats :=
  ((s.add_exp a).check_and_level_up).1

/-- A finite sequence of training rounds on a sub-stat. -/
def sub_train_seq (s : SubStats) (l : List ℤ) : SubStats :=
  l.foldl sub_train_step s

/-- Unfolding of `check_and_level_up` when no level-up is possible:
the loop exits on its first test. -/
theorem check_and_level_up_of_lt (s : SubStats) (h : s.exp < s.exp_to_next_level) :
    s.check_and_level_up = (s, false) := by
  show level_up_go (s.exp.toNat + 1) s false = (s, false)
  simp [level_up_go, not_le.mpr h]

/-- Unfolding of `check_and_level_up` when exactly one level-up occurs. -/
theorem check_and_level_up_single (s : SubStats) (h0 : 1 ≤ s.exp)
    (h1 : s.exp_to_next_level ≤ s.exp)
    (h2 : s.exp - s.exp_to_next_level < exp_requirement_at s.level) :
    s.check_and_level_up =
      ({ s with
          exp := s.exp - s.exp_to_next_level
          exp_to_next_level := exp_requirement_at s.level
          level := s.level + 1 }, true) := by
  show level_up_go (s.exp.toNat + 1) s false = _
  have hn : s.exp.toNat = (s.exp.toNat - 1) + 1 := by omega
  rw [hn]
  simp only [level_up_go, if_pos h1, if_neg (not_le.mpr h2)]

/-- The `PlayerStat` dataclass. The sub-stat attributes discovered by
`__post_init__`'s reflection over dataclass fields are modelled by the
association list `substats` (attribute name to `SubStats` value, in field
declaration order); the derived physical integer fields added by the
concrete subclasses (`damage`, `player_health`, ...) are modelled by the
association list `physicals`. -/
structure PlayerStat where
  main_level : ℤ
  total_substat_levels : ℤ
  main_level_req : ℤ
  substats : List (String × SubStats)
  substat_amount : ℤ
  physicals : List (String × ℤ)
deriving DecidableEq, Repr

/-- Construction of a `PlayerStat` followed by `__post_init__`:
`substat_amount` is the number of sub-stat fields and
`main_level_req = main_level * substat_amount`. -/
def mk_player_stat (ml tot : ℤ) (subs : List (String × SubStats))
    (phys : List (String × ℤ)) : PlayerStat :=
  { main_level := ml
    total_substat_levels := tot
    main_level_req := ml * subs.length
    substats := subs
    substat_amount := subs.length
    physicals := phys }

/-- The body of `PlayerStat.train` before the
`update_total_substat_level` decorator is applied: if the name is one of the
sub-stat attribute names, deposit the experience into that sub-stat and run
its level-up check, returning its boolean; otherwise fall through and
return Python's `None` (modelled as `none`). -/
def train_inner (c : PlayerStat) (nm : String) (e : ℤ) : PlayerStat × Option Bool :=
  match c.substats.lookup nm with
  | some ss =>
    let r := (ss.add_exp e).check_and_level_up
    ({ c with substats := c.substats.map fun p => if p.1 = nm then (p.1, r.1) else p },
      some r.2)
  | none => (c, none)

/-- `PlayerStat.train` as seen by callers: the `update_total_substat_level`
decorator increments `total_substat_levels` by 1 exactly when the wrapped
method returned `True`, and passes the return value through. The result is
wrapped in `Except` to model Python exceptions; this method raises none. -/
def PlayerStat.train (c : PlayerStat) (nm : String) (e : ℤ) :
    Except String (PlayerStat × Option Bool) :=
  match train_inner c nm e with
  | (c1, some true) =>
    .ok ({ c1 with total_substat_levels := c1.total_substat_levels + 1 }, some true)
  | r => .ok r

/-- `PlayerStat.try_main_level_up`: on success, `main_level` is incremented
first and `main_level_req` is then recomputed from the incremented value. -/
def PlayerStat.try_main_level_up (c : PlayerStat) : PlayerStat × Bool :=
  if c.main_level_req ≤ c.total_substat_levels then
    let c1 := { c with main_level := c.main_level + 1 }
    let c2 := { c1 with main_level_req := c1.main_level * c1.substat_amount }
    (c2, true)
  else (c, false)

/-- Python's `int(math.log10(n))` for `n > 0` (idealizing `math.log10` as the
exact real logarithm): for `n ≥ 1` this is the number of decimal digits of
`⌊n⌋` minus one, i.e. `Nat.log 10 ⌊n⌋`; for `0 < n < 1` the truncation
toward zero of the negative logarithm equals `-Nat.log 10 ⌊1/n⌋`. -/
def py_int_log10 (n : ℚ) : ℤ :=
  if 1 ≤ n then (Nat.log 10 ⌊n⌋.toNat : ℤ) else -(Nat.log 10 ⌊1 / n⌋.toNat : ℤ)

/-- `round_to_3_leading_digits` of `tools/number_utils.py`. A zero input is
returned unchanged; a negative input makes `math.log10` raise
(`ValueError: math domain error`). Otherwise `digits` counts the decimal
digits, `factor = 10 ** (digits - 3)` (a float `10 ** zeros` when
`zeros < 0`, modelled exactly by a `zpow`), and the value is rounded up to
the next multiple of `factor`. -/
def round_to_3_leading_digits (n : ℚ) : Except String ℚ :=
  if n = 0 then .ok 0
  else if n < 0 then .error "math domain error"
  else
    .ok ((⌈n / (10 : ℚ) ^ (py_int_log10 n + 1 - 3)⌉ : ℚ) * (10 : ℚ) ^ (py_int_log10 n + 1 - 3))

/-- `PlayerStat.compute_player_physical_stats`: the tiered `increase_factor`
from `main_level` (the three `if` branches of the source, the last one
taking over from level 100 on), the `getattr` read of the stored physical
field (an `AttributeError` if the name is unknown), the `int(... * 1.1)`
base boost, and the final rounding. The method only rebinds a local
variable, so the category itself is returned unchanged. -/
def PlayerStat.compute_player_physical_stats (c : PlayerStat) (physical_name : String)
    (option1 option2 option3 : ℤ) : Except String (PlayerStat × ℚ) :=
  let increase_factor : ℚ :=
    if c.main_level < 50 then ((c.main_level : ℚ) / 5) * option1
    else if c.main_level < 100 then ((c.main_level : ℚ) / 5) * option2
    else ((c.main_level : ℚ) / 5) * ((option3 : ℚ) * (((c.main_level : ℚ) - 100) / 75 + 1))
  match c.physicals.lookup physical_name with
  | none => .error "AttributeError"
  | some v =>
    match round_to_3_leading_digits ((pyInt ((v : ℚ) * (11 / 10)) : ℚ) + increase_factor) with
    | .ok r => .ok (c, r)
    | .error msg => .error msg

/-- A freshly constructed `DurabilityStats` of
`game/player_files/player_stats/stat_types.py`: four default sub-stats and
the seeded physical fields `player_health = 100`, `player_stamina = 100`,
`player_regen = 5`; `main_level` starts at 1. -/
def durability_fresh : PlayerStat :=
  mk_player_stat 1 0
    [("lung_capacity", mk_sub_stats .DURABILITY "Lung Capacity"),
     ("stamina", mk_sub_stats .DURABILITY "Stamina"),
     ("regeneration", mk_sub_stats .DURABILITY "Regeneration"),
     ("toughness", mk_sub_stats .DURABILITY "Toughness")]
    [("player_health", 100), ("player_stamina", 100), ("player_regen", 5)]

/-- `DurabilityStats.compute_health`: health from the tier factors
`(15, 50, 300)`. -/
def DurabilityStats.compute_health (c : PlayerStat) : Except String (PlayerStat × ℚ) :=
  c.compute_player_physical_stats "player_health" 15 50 300

/-- The experience-requirement reference definition transcribed from the
specification text: `b = floor((L-1)/100)`, `i = (L-1) mod 100`,
`(start, end) = (10, 50000)` for `b = 0` and
`(50000 * 250^(b-1), 50000 * 250^b)` for `b ≥ 1`, and
`requirement = floor(start + (i/99)^2 * (end - start))`. -/
def spec_requirement (L : ℤ) : ℤ :=
  ⌊((if (L - 1) / 100 = 0 then (10 : ℤ) else 50000 * 250 ^ ((L - 1) / 100 - 1).toNat) : ℚ) +
      ((((L - 1) % 100 : ℤ) : ℚ) / 99) ^ 2 *
        (((if (L - 1) / 100 = 0 then (50000 : ℤ) else 50000 * 250 ^ ((L - 1) / 100).toNat) : ℚ) -
          ((if (L - 1) / 100 = 0 then (10 : ℤ) else 50000 * 250 ^ ((L - 1) / 100 - 1).toNat) : ℚ))⌋

theorem pyInt_eq_floor (q : ℚ) (h : 0 ≤ q) : pyInt q = ⌊q⌋ := by
  simp [pyInt, h]

theorem start_exp_ge_ten (b : ℤ) : 10 ≤ start_exp_of b := by
  unfold start_exp_of
  split
  · norm_num
  · have h1 : (1 : ℤ) ≤ 250 ^ (b - 1).toNat := one_le_pow₀ (by norm_num)
    nlinarith

theorem start_le_end (b : ℤ) (hb : 0 ≤ b) : start_exp_of b ≤ end_exp_of b := by
  unfold start_exp_of end_exp_of
  by_cases h : b = 0
  · simp [h]
  · rw [if_neg h, if_neg h]
    have hm : (b - 1).toNat ≤ b.toNat := by omega
    have := pow_le_pow_right₀ (by norm_num : (1:ℤ) ≤ 250) hm
    nlinarith

theorem i_bounds (L : ℤ) : 0 ≤ (L - 1) % 100 ∧ (L - 1) % 100 < 100 := by omega

theorem exp_req_q_ge_start (L : ℤ) (h : 1 ≤ L) :
    (start_exp_of ((L - 1) / 100) : ℚ) ≤ exp_req_q L := by
  unfold exp_req_q
  have hb : 0 ≤ (L - 1) / 100 := by omega
  have hse := start_le_end _ hb
  have hsq : (0 : ℚ) ≤ ((((L - 1) % 100 : ℤ) : ℚ) / 99) ^ 2 := sq_nonneg _
  have hdiff : (0 : ℚ) ≤ (end_exp_of ((L - 1) / 100) : ℚ) - (start_exp_of ((L - 1) / 100) : ℚ) := by
    rw [sub_nonneg]
    exact_mod_cast hse
  nlinarith

theorem exp_req_q_nonneg (L : ℤ) (h : 1 ≤ L) : 0 ≤ exp_req_q L := by
  have h1 := exp_req_q_ge_start L h
  have h2 : (10 : ℚ) ≤ (start_exp_of ((L - 1) / 100) : ℚ) := by
    exact_mod_cast start_exp_ge_ten _
  linarith

theorem exp_requirement_ge_ten (L : ℤ) (h : 1 ≤ L) : 10 ≤ exp_requirement_at L := by
  unfold exp_requirement_at
  rw [pyInt_eq_floor _ (exp_req_q_nonneg L h)]
  rw [Int.le_floor]
  have h1 := exp_req_q_ge_start L h
  have h2 : (10 : ℚ) ≤ (start_exp_of ((L - 1) / 100) : ℚ) := by
    exact_mod_cast start_exp_ge_ten _
  push_cast
  linarith

/-- Sufficiency of the iteration bound, together with the loop invariant:
starting from a state with `level ≥ 1`, `exp ≥ 0` and a positive stored
requirement, and with more fuel than `exp.toNat`, the loop terminates by
failing its test, so the final state satisfies `exp < exp_to_next_level`
and is again well-formed. -/
theorem level_up_go_spec (fuel : ℕ) :
    ∀ (s : SubStats) (acc : Bool), 1 ≤ s.level → 0 ≤ s.exp →
      1 ≤ s.exp_to_next_level → s.exp.toNat < fuel →
      (level_up_go fuel s acc).1.exp < (level_up_go fuel s acc).1.exp_to_next_level ∧
        1 ≤ (level_up_go fuel s acc).1.level ∧
        0 ≤ (level_up_go fuel s acc).1.exp ∧
        1 ≤ (level_up_go fuel s acc).1.exp_to_next_level := by
  induction fuel with
  | zero => intro s acc _ h2 _ h4; omega
  | succ n ih =>
    intro s acc h1 h2 h3 h4
    by_cases hc : s.exp_to_next_level ≤ s.exp
    · rw [show level_up_go (n + 1) s acc =
          level_up_go n
            { s with
              exp := s.exp - s.exp_to_next_level
              exp_to_next_level := exp_requirement_at s.level
              level := s.level + 1 } true from by rw [level_up_go]; rw [if_pos hc]]
      refine ih _ true (by simp; omega) (by simp; omega) ?_ (by simp; omega)
      have := exp_requirement_ge_ten s.level h1
      simp
      omega
    · rw [show level_up_go (n + 1) s acc = (s, acc) from by rw [level_up_go]; rw [if_neg hc]]
      exact ⟨by simpa using not_le.mp hc, h1, h2, h3⟩

/-- Once the loop has recorded a level-up, the flag stays `true`. -/
theorem level_up_go_acc_true (fuel : ℕ) :
    ∀ s : SubStats, (level_up_go fuel s true).2 = true := by
  induction fuel with
  | zero => intro s; rfl
  | succ n ih =>
    intro s
    by_cases hc : s.exp_to_next_level ≤ s.exp
    · rw [level_up_go]; rw [if_pos hc]; exact ih _
    · rw [level_up_go]; rw [if_neg hc]

/-- The loop never decreases the level. -/
theorem level_up_go_level_mono (fuel : ℕ) :
    ∀ (s : SubStats) (acc : Bool), s.level ≤ (level_up_go fuel s acc).1.level := by
  induction fuel with
  | zero => intro s acc; exact le_refl _
  | succ n ih =>
    intro s acc
    by_cases hc : s.exp_to_next_level ≤ s.exp
    · rw [level_up_go]; rw [if_pos hc]
      have := ih { s with
        exp := s.exp - s.exp_to_next_level
        exp_to_next_level := exp_requirement_at s.level
        level := s.level + 1 } true
      simp at this
      omega
    · rw [level_up_go]; rw [if_neg hc]

/-- Starting with a clear flag, the loop reports `true` exactly when the
level strictly increased. -/
theorem level_up_go_flag (fuel : ℕ) :
    ∀ s : SubStats,
      ((level_up_go fuel s false).2 = true ↔ s.level < (level_up_go fuel s false).1.level) := by
  induction fuel with
  | zero => intro s; simp [level_up_go]
  | succ n ih =>
    intro s
    by_cases hc : s.exp_to_next_level ≤ s.exp
    · rw [level_up_go]; rw [if_pos hc]
      constructor
      · intro _
        have h1 := level_up_go_level_mono n
          { s with
            exp := s.exp - s.exp_to_next_level
            exp_to_next_level := exp_requirement_at s.level
            level := s.level + 1 } true
        simp at h1
        omega
      · intro _; exact level_up_go_acc_true n _
    · rw [level_up_go]; rw [if_neg hc]; simp

/-- `check_and_level_up` restores the invariant `exp < exp_to_next_level`
and preserves well-formedness. -/
theorem check_and_level_up_wf (s : SubStats) (h1 : 1 ≤ s.level) (h2 : 0 ≤ s.exp)
    (h3 : 1 ≤ s.exp_to_next_level) :
    s.check_and_level_up.1.exp < s.check_and_level_up.1.exp_to_next_level ∧
      1 ≤ s.check_and_level_up.1.level ∧
      0 ≤ s.check_and_level_up.1.exp ∧
      1 ≤ s.check_and_level_up.1.exp_to_next_level :=
  level_up_go_spec _ s false h1 h2 h3 (by omega)

/-- `check_and_level_up` reports `true` exactly when the level increased. -/
theorem check_and_level_up_flag (s : SubStats) :
    (s.check_and_level_up.2 = true ↔ s.level < s.check_and_level_up.1.level) :=
  level_up_go_flag _ s

/-- Within a 100-level block the interpolant is monotone in the level. -/
theorem exp_req_q_mono (L : ℤ) (h1 : 1 ≤ L) (hb : (L - 1) / 100 = L / 100) :
    exp_req_q L ≤ exp_req_q (L + 1) := by
  have e1 : L + 1 - 1 = L := by ring
  have hi : L % 100 = (L - 1) % 100 + 1 := by omega
  unfold exp_req_q
  rw [e1, ← hb, hi]
  have hi0 : (0 : ℤ) ≤ (L - 1) % 100 := by omega
  have hse := start_le_end ((L - 1) / 100) (by omega)
  have hdiff : (0 : ℚ) ≤
      (end_exp_of ((L - 1) / 100) : ℚ) - (start_exp_of ((L - 1) / 100) : ℚ) := by
    rw [sub_nonneg]; exact_mod_cast hse
  have hx0 : (0 : ℚ) ≤ (((L - 1) % 100 : ℤ) : ℚ) / 99 :=
    div_nonneg (by exact_mod_cast hi0) (by norm_num)
  have hle : (((L - 1) % 100 : ℤ) : ℚ) / 99 ≤ (((L - 1) % 100 + 1 : ℤ) : ℚ) / 99 := by
    push_cast
    linarith
  have hsq := pow_le_pow_left₀ hx0 hle 2
  nlinarith [hsq, hdiff]

theorem exp_requirement_mono (L : ℤ) (h1 : 1 ≤ L) (hb : (L - 1) / 100 = L / 100) :
    exp_requirement_at L ≤ exp_requirement_at (L + 1) := by
  unfold exp_requirement_at
  rw [pyInt_eq_floor _ (exp_req_q_nonneg L h1),
    pyInt_eq_floor _ (exp_req_q_nonneg (L + 1) (by omega))]
  exact Int.floor_le_floor (exp_req_q_mono L h1 hb)

/-- At every block boundary the interpolant is continuous: the value at the
first level of block `k` equals the value at the last level of block `k-1`
(both are `50000 * 250 ^ (k-1)`). -/
theorem exp_req_q_boundary (k : ℤ) (hk : 1 ≤ k) :
    exp_req_q (100 * k) = exp_req_q (100 * k + 1) := by
  have hb0 : (100 * k - 1) / 100 = k - 1 := by omega
  have hi0 : (100 * k - 1) % 100 = 99 := by omega
  have hb1 : (100 * k + 1 - 1) / 100 = k := by omega
  have hi1 : (100 * k + 1 - 1) % 100 = 0 := by omega
  unfold exp_req_q
  rw [hb0, hi0, hb1, hi1]
  by_cases h1 : k = 1
  · subst h1
    norm_num [start_exp_of, end_exp_of]
  · have hne0 : ¬(k - 1 = 0) := by omega
    have hne1 : ¬(k = 0) := by omega
    unfold start_exp_of end_exp_of
    rw [if_neg hne0, if_neg hne0, if_neg hne1, if_neg hne1]
    have hexp : (k - 1).toNat = (k - 1 - 1).toNat + 1 := by omega
    rw [hexp, pow_succ]
    push_cast
    ring

theorem exp_requirement_boundary (k : ℤ) (hk : 1 ≤ k) :
    exp_requirement_at (100 * k) = exp_requirement_at (100 * k + 1) := by
  unfold exp_requirement_at
  rw [exp_req_q_boundary k hk]

/-- C1: for every level `L ≥ 1`, `compute_exp_requirement` equals the
specification's reference definition
`floor(start + (i/99)^2 * (end - start))` with
`b = (L-1) // 100`, `i = (L-1) mod 100`, `(start, end) = (10, 50000)` for
`b = 0` and `(50000 * 250^(b-1), 50000 * 250^b)` for `b ≥ 1`. (Python float
arithmetic is modelled as exact rational arithmetic; the `int(...)`
truncation coincides with `floor` because the interpolant is
nonnegative.) -/
theorem claim_C1_curve_matches_spec (L : ℤ) (h : 1 ≤ L) :
    exp_requirement_at L = spec_requirement L := by
  unfold exp_requirement_at
  rw [pyInt_eq_floor _ (exp_req_q_nonneg L h)]
  unfold exp_req_q spec_requirement start_exp_of end_exp_of
  congr 1
  split_ifs
  · push_cast; ring
  · push_cast; ring

/-- Witness for C1 at the concrete level 250. -/
theorem claim_C1_witness :
    (1 : ℤ) ≤ 250 ∧ exp_requirement_at 250 = spec_requirement 250 :=
  ⟨by decide, claim_C1_curve_matches_spec 250 (by decide)⟩

/-- C8 counterexample: the requirement does not jump at the first block
boundary — the last level of block 0 and the first level of block 1 have
the same requirement, 50000, so the first requirement of the next block
does not strictly exceed the last requirement of the previous block. -/
theorem claim_C8_counterexample :
    exp_requirement_at 100 = 50000 ∧ exp_requirement_at 101 = 50000 := by
  constructor <;>
    (unfold exp_requirement_at exp_req_q start_exp_of end_exp_of pyInt; norm_num)

/-- C8 (amended): for all `L ≥ 1` the requirement is positive; within a
100-level block it is non-decreasing; and at each block boundary
`L = 100k` the curve is continuous — the first requirement of the next
block equals (rather than strictly exceeds) the last requirement of the
previous block. -/
theorem claim_C8_curve_shape :
    (∀ L : ℤ, 1 ≤ L → 0 < exp_requirement_at L) ∧
      (∀ L : ℤ, 1 ≤ L → (L - 1) / 100 = L / 100 →
        exp_requirement_at L ≤ exp_requirement_at (L + 1)) ∧
      (∀ k : ℤ, 1 ≤ k →
        exp_requirement_at (100 * k) = exp_requirement_at (100 * k + 1)) :=
  ⟨fun L h => lt_of_lt_of_le (by norm_num) (exp_requirement_ge_ten L h),
    fun L h hb => exp_requirement_mono L h hb,
    fun k hk => exp_requirement_boundary k hk⟩

/-- Witness for C8 (amended) at concrete levels. -/
theorem claim_C8_witness :
    0 < exp_requirement_at 7 ∧
      exp_requirement_at 7 ≤ exp_requirement_at (7 + 1) ∧
      exp_requirement_at (100 * 2) = exp_requirement_at (100 * 2 + 1) :=
  ⟨claim_C8_curve_shape.1 7 (by decide),
    claim_C8_curve_shape.2.1 7 (by decide) (by decide),
    claim_C8_curve_shape.2.2 2 (by decide)⟩

/-- A freshly constructed sub-stat: level 1, experience 0, stored
requirement 10. -/
def fresh_substat : SubStats := mk_sub_stats .STRENGTH "Core Strength"

/-- C2: evaluation of the code at the claimed scenario. A fresh sub-stat
given `add_exp 10` then `check_and_level_up` reaches level 2 with
experience 0, but the stored `exp_to_next_level` is 10 — the requirement
recomputed at the PRE-increment level 1 — whereas the curve requirement for
the new level 2 is 15, as the claim and the source's own comment
("Recalculate threshold for next level") require. -/
theorem claim_C2_requirement_off_by_one :
    ((fresh_substat.add_exp 10).check_and_level_up).1.level = 2 ∧
      ((fresh_substat.add_exp 10).check_and_level_up).1.exp = 0 ∧
      ((fresh_substat.add_exp 10).check_and_level_up).1.exp_to_next_level = 10 ∧
      exp_requirement_at 2 = 15 := by
  have h1 : exp_requirement_at 1 = 10 := by
    unfold exp_requirement_at exp_req_q start_exp_of end_exp_of pyInt
    norm_num
  have h2 := check_and_level_up_single (fresh_substat.add_exp 10)
    (by simp [SubStats.add_exp, fresh_substat, mk_sub_stats])
    (by simp [SubStats.add_exp, fresh_substat, mk_sub_stats])
    (by simp [SubStats.add_exp, fresh_substat, mk_sub_stats, h1])
  rw [h2]
  refine ⟨by simp [SubStats.add_exp, fresh_substat, mk_sub_stats],
    by simp [SubStats.add_exp, fresh_substat, mk_sub_stats],
    by simp [SubStats.add_exp, fresh_substat, mk_sub_stats, h1], ?_⟩
  unfold exp_requirement_at exp_req_q start_exp_of end_exp_of pyInt
  norm_num

theorem sub_train_step_wf (s : SubStats) (a : ℤ) (h1 : 1 ≤ s.level) (h2 : 0 ≤ s.exp)
    (h3 : 1 ≤ s.exp_to_next_level) (ha : 0 ≤ a) :
    (sub_train_step s a).exp < (sub_train_step s a).exp_to_next_level ∧
      1 ≤ (sub_train_step s a).level ∧
      0 ≤ (sub_train_step s a).exp ∧
      1 ≤ (sub_train_step s a).exp_to_next_level := by
  unfold sub_train_step
  exact check_and_level_up_wf (s.add_exp a)
    (by simpa [SubStats.add_exp] using h1)
    (by simp [SubStats.add_exp]; omega)
    (by simpa [SubStats.add_exp] using h3)

theorem sub_train_seq_inv (l : List ℤ) :
    ∀ (s : SubStats) (a : ℤ), 1 ≤ s.level → 0 ≤ s.exp → 1 ≤ s.exp_to_next_level →
      0 ≤ a → (∀ x ∈ l, 0 ≤ x) →
      (sub_train_seq s (a :: l)).exp < (sub_train_seq s (a :: l)).exp_to_next_level ∧
        1 ≤ (sub_train_seq s (a :: l)).level ∧
        0 ≤ (sub_train_seq s (a :: l)).exp ∧
        1 ≤ (sub_train_seq s (a :: l)).exp_to_next_level := by
  induction l with
  | nil =>
    intro s a h1 h2 h3 ha _
    simpa [sub_train_seq] using sub_train_step_wf s a h1 h2 h3 ha
  | cons x xs ih =>
    intro s a h1 h2 h3 ha hall
    have hw := sub_train_step_wf s a h1 h2 h3 ha
    have hsplit : sub_train_seq s (a :: x :: xs) = sub_train_seq (sub_train_step s a) (x :: xs) := by
      simp [sub_train_seq]
    rw [hsplit]
    exact ih (sub_train_step s a) x hw.2.1 hw.2.2.1 hw.2.2.2
      (hall x (by simp)) (fun y hy => hall y (by simp [hy]))

/-- C3: from any well-formed sub-stat state (level ≥ 1, nonnegative
experience, positive stored requirement), after any nonempty sequence of
nonnegative `add_exp` deposits each followed by `check_and_level_up`, the
invariant `exp < exp_to_next_level` holds; and a second consecutive
`check_and_level_up` with no intervening deposit returns the state
unchanged together with `false`. -/
theorem claim_C3_invariant_idempotence (s : SubStats) (h1 : 1 ≤ s.level)
    (h2 : 0 ≤ s.exp) (h3 : 1 ≤ s.exp_to_next_level) :
    (∀ (a : ℤ) (l : List ℤ), 0 ≤ a → (∀ x ∈ l, 0 ≤ x) →
      (sub_train_seq s (a :: l)).exp < (sub_train_seq s (a :: l)).exp_to_next_level) ∧
      (∀ a : ℤ, 0 ≤ a →
        (sub_train_step s a).check_and_level_up = (sub_train_step s a, false)) := by
  constructor
  · intro a l ha hl
    exact (sub_train_seq_inv l s a h1 h2 h3 ha hl).1
  · intro a ha
    exact check_and_level_up_of_lt _ (sub_train_step_wf s a h1 h2 h3 ha).1

/-- Witness for C3 on a fresh sub-stat and the deposit sequence `[10]`. -/
theorem claim_C3_witness :
    (sub_train_seq fresh_substat (10 :: [])).exp <
        (sub_train_seq fresh_substat (10 :: [])).exp_to_next_level ∧
      (sub_train_step fresh_substat 10).check_and_level_up =
        (sub_train_step fresh_substat 10, false) :=
  ⟨(claim_C3_invariant_idempotence fresh_substat (by decide) (by decide) (by decide)).1
      10 [] (by decide) (by simp),
    (claim_C3_invariant_idempotence fresh_substat (by decide) (by decide) (by decide)).2
      10 (by decide)⟩

/-- C5 counterexample: `add_exp` of a negative amount does not leave `exp`
unchanged (and raises nothing) — the negative deposit is applied. -/
theorem claim_C5_counterexample :
    (fresh_substat.add_exp (-5)).exp = -5 ∧ fresh_substat.exp = 0 := by
  constructor <;> rfl

/-- C5 (amended): `add_exp` performs no validation at all: any amount,
negative included, is added to `exp` unconditionally, with every other
field unchanged; no `InvalidInputError` exists in the code. -/
theorem claim_C5_no_validation (s : SubStats) (a : ℤ) (h : a < 0) :
    (s.add_exp a).exp = s.exp + a ∧
      (s.add_exp a).level = s.level ∧
      (s.add_exp a).exp_to_next_level = s.exp_to_next_level ∧
      (s.add_exp a).name = s.name :=
  ⟨rfl, rfl, rfl, rfl⟩

/-- Witness for C5 (amended) at the deposit `-5`. -/
theorem claim_C5_witness :
    (fresh_substat.add_exp (-5)).exp = fresh_substat.exp + (-5) ∧
      (fresh_substat.add_exp (-5)).level = fresh_substat.level ∧
      (fresh_substat.add_exp (-5)).exp_to_next_level = fresh_substat.exp_to_next_level ∧
      (fresh_substat.add_exp (-5)).name = fresh_substat.name :=
  claim_C5_no_validation fresh_substat (-5) (by decide)

/-- C4 counterexample: training an unknown sub-stat name does not raise —
the call returns normally with Python's `None` and the category unchanged,
so no `UnknownAttributeError` (nor any exception) is produced. -/
theorem claim_C4_counterexample :
    durability_fresh.train "bogus" 5 = Except.ok (durability_fresh, none) := by
  rfl

/-- C4 (amended): for a name that is not one of the category's sub-stat
names, `train` silently returns `None` — no exception is raised — and the
whole category, `total_substat_levels` included, is returned unchanged. -/
theorem claim_C4_unknown_name_silent (c : PlayerStat) (nm : String) (e : ℤ)
    (h : c.substats.lookup nm = none) :
    c.train nm e = Except.ok (c, none) := by
  unfold PlayerStat.train train_inner
  rw [h]

/-- Witness for C4 (amended) on the Durability category and the name
`"bogus"`. -/
theorem claim_C4_witness :
    durability_fresh.substats.lookup "bogus" = none ∧
      durability_fresh.train "bogus" 5 = Except.ok (durability_fresh, none) :=
  ⟨by rfl, claim_C4_unknown_name_silent durability_fresh "bogus" 5 (by rfl)⟩

/-- Replacing the entry of a present key in an association list is observed
by a subsequent lookup of that key. -/
theorem lookup_map_update (l : List (String × SubStats)) (nm : String)
    (x ss : SubStats) (h : l.lookup nm = some ss) :
    (l.map fun p => if p.1 = nm then (p.1, x) else p).lookup nm = some x := by
  induction l with
  | nil => simp [List.lookup] at h
  | cons hd tl ih =>
    obtain ⟨k, v⟩ := hd
    by_cases he : nm = k
    · subst he
      simp [List.lookup_cons]
    · have hbeq : (nm == k) = false := beq_false_of_ne he
      have he' : ¬((k, v).1 = nm) := fun hh => he (by simpa using hh.symm)
      simp only [List.lookup_cons, hbeq, cond_false] at h
      simp only [List.map_cons, if_neg he', List.lookup_cons, hbeq, cond_false]
      exact ih h

/-- C6: training a member sub-stat returns the level-up flag; the flag is
`true` exactly when the named sub-stat's level strictly increased (by one
or more levels), and `total_substat_levels` grows by exactly 1 when the
flag is `true` and is unchanged when it is `false` — independently of how
many levels the sub-stat actually gained. -/
theorem claim_C6_total_increment (c : PlayerStat) (nm : String) (e : ℤ)
    (ss : SubStats) (h : c.substats.lookup nm = some ss) :
    ∃ (c' : PlayerStat) (b : Bool) (ss' : SubStats),
      c.train nm e = Except.ok (c', some b) ∧
        c'.substats.lookup nm = some ss' ∧
        (b = true ↔ ss.level < ss'.level) ∧
        (b = true → c'.total_substat_levels = c.total_substat_levels + 1) ∧
        (b = false → c'.total_substat_levels = c.total_substat_levels) := by
  have hflag := check_and_level_up_flag (ss.add_exp e)
  have hlvl : (ss.add_exp e).level = ss.level := rfl
  rw [hlvl] at hflag
  by_cases hb : ((ss.add_exp e).check_and_level_up).2 = true
  · have htr : c.train nm e = Except.ok
        ({ c with
            substats := c.substats.map fun p =>
              if p.1 = nm then (p.1, ((ss.add_exp e).check_and_level_up).1) else p
            total_substat_levels := c.total_substat_levels + 1 }, some true) := by
      unfold PlayerStat.train train_inner
      rw [h]
      simp [hb]
    refine ⟨_, true, ((ss.add_exp e).check_and_level_up).1, htr,
      lookup_map_update c.substats nm _ ss h, ?_, fun _ => rfl, fun hcon => by simp at hcon⟩
    simpa [hb] using hflag
  · have hb' : ((ss.add_exp e).check_and_level_up).2 = false := by
      cases hx : ((ss.add_exp e).check_and_level_up).2
      · rfl
      · exact absurd hx hb
    have htr : c.train nm e = Except.ok
        ({ c with
            substats := c.substats.map fun p =>
              if p.1 = nm then (p.1, ((ss.add_exp e).check_and_level_up).1) else p }, some false) := by
      unfold PlayerStat.train train_inner
      rw [h]
      simp [hb']
    refine ⟨_, false, ((ss.add_exp e).check_and_level_up).1, htr,
      lookup_map_update c.substats nm _ ss h, ?_, fun hcon => by simp at hcon, fun _ => rfl⟩
    rw [hb'] at hflag
    simpa using hflag

/-- Witness for C6: training the member `"stamina"` of the fresh Durability
category with a deposit of 10. -/
theorem claim_C6_witness :
    ∃ (c' : PlayerStat) (b : Bool) (ss' : SubStats),
      durability_fresh.train "stamina" 10 = Except.ok (c', some b) ∧
        c'.substats.lookup "stamina" = some ss' ∧
        (b = true ↔ (mk_sub_stats .DURABILITY "Stamina").level < ss'.level) ∧
        (b = true →
          c'.total_substat_levels = durability_fresh.total_substat_levels + 1) ∧
        (b = false →
          c'.total_substat_levels = durability_fresh.total_substat_levels) :=
  claim_C6_total_increment durability_fresh "stamina" 10
    (mk_sub_stats .DURABILITY "Stamina") (by rfl)

/-- C7: `try_main_level_up` succeeds (returns `true`) exactly when
`total_substat_levels ≥ main_level_req` held at entry; on success
`main_level` grows by exactly 1 and `main_level_req` becomes the NEW
`main_level` times the sub-stat count; on failure the category is fully
unchanged; and in both cases `total_substat_levels` is not modified. -/
theorem claim_C7_main_level_up (c : PlayerStat) :
    ((c.try_main_level_up.2 = true) ↔ c.main_level_req ≤ c.total_substat_levels) ∧
      (c.try_main_level_up.2 = true →
        c.try_main_level_up.1.main_level = c.main_level + 1 ∧
          c.try_main_level_up.1.main_level_req =
            c.try_main_level_up.1.main_level * c.substat_amount) ∧
      (c.try_main_level_up.2 = false → c.try_main_level_up.1 = c) ∧
      c.try_main_level_up.1.total_substat_levels = c.total_substat_levels := by
  unfold PlayerStat.try_main_level_up
  by_cases hc : c.main_level_req ≤ c.total_substat_levels
  · simp [hc]
  · simp [hc]

/-- Witness for C7 on the fresh Durability category (where
`total_substat_levels = 0 < 4 = main_level_req`, so no level-up occurs). -/
theorem claim_C7_witness :
    ((durability_fresh.try_main_level_up.2 = true) ↔
        durability_fresh.main_level_req ≤ durability_fresh.total_substat_levels) ∧
      (durability_fresh.try_main_level_up.2 = true →
        durability_fresh.try_main_level_up.1.main_level =
            durability_fresh.main_level + 1 ∧
          durability_fresh.try_main_level_up.1.main_level_req =
            durability_fresh.try_main_level_up.1.main_level *
              durability_fresh.substat_amount) ∧
      (durability_fresh.try_main_level_up.2 = false →
        durability_fresh.try_main_level_up.1 = durability_fresh) ∧
      durability_fresh.try_main_level_up.1.total_substat_levels =
        durability_fresh.total_substat_levels :=
  claim_C7_main_level_up durability_fresh

/-- `round_to_3_leading_digits` on a positive argument returns normally with
the rounded-up multiple of `10 ^ (digits - 3)`. -/
theorem round_to_3_pos (n : ℚ) (h : 0 < n) :
    round_to_3_leading_digits n =
      Except.ok ((⌈n / (10 : ℚ) ^ (py_int_log10 n + 1 - 3)⌉ : ℚ) *
        (10 : ℚ) ^ (py_int_log10 n + 1 - 3)) := by
  unfold round_to_3_leading_digits
  rw [if_neg h.ne', if_neg (not_lt.mpr h.le)]

/-- Evaluation of `compute_player_physical_stats` in the low tier
(`main_level < 50`) at a present field. -/
theorem compute_phys_low_tier (c : PlayerStat) (nm : String) (o1 o2 o3 v : ℤ)
    (hv : c.physicals.lookup nm = some v) (hml : c.main_level < 50) :
    c.compute_player_physical_stats nm o1 o2 o3 =
      match round_to_3_leading_digits
          ((pyInt ((v : ℚ) * (11 / 10)) : ℚ) + ((c.main_level : ℚ) / 5) * (o1 : ℚ)) with
      | .ok r => .ok (c, r)
      | .error msg => .error msg := by
  unfold PlayerStat.compute_player_physical_stats
  rw [hv, if_pos hml]

/-- C9: the fresh Durability category (`main_level = 1`,
`player_health = 100`) computing health with the tier factors
`(15, 50, 300)` selects the low tier, gains `(1/5)*15 = 3` on top of
`int(100 * 1.1) = 110`, and returns 113, which
`round_to_3_leading_digits` leaves unchanged. -/
theorem claim_C9_health_113 :
    DurabilityStats.compute_health durability_fresh =
        Except.ok (durability_fresh, 113) ∧
      round_to_3_leading_digits 113 = Except.ok 113 := by
  have hlog : Nat.log 10 113 = 2 :=
    Nat.log_eq_of_pow_le_of_lt_pow (by norm_num) (by norm_num)
  have hlog113 : py_int_log10 113 = 2 := by
    unfold py_int_log10
    rw [if_pos (by norm_num : (1 : ℚ) ≤ 113)]
    rw [show ⌊(113 : ℚ)⌋ = 113 from by norm_num]
    rw [show (113 : ℤ).toNat = 113 from rfl]
    rw [hlog]
    rfl
  have hround : round_to_3_leading_digits 113 = Except.ok 113 := by
    rw [round_to_3_pos 113 (by norm_num), hlog113]
    norm_num
  refine ⟨?_, hround⟩
  unfold DurabilityStats.compute_health
  rw [compute_phys_low_tier durability_fresh "player_health" 15 50 300 100 rfl
    (by decide)]
  have hPy : pyInt (((100 : ℤ) : ℚ) * (11 / 10)) = 110 := by
    unfold pyInt
    rw [if_pos (by norm_num)]
    norm_num
  have harg : ((pyInt (((100 : ℤ) : ℚ) * (11 / 10)) : ℤ) : ℚ) +
      ((durability_fresh.main_level : ℚ) / 5) * ((15 : ℤ) : ℚ) = 113 := by
    rw [hPy, show durability_fresh.main_level = (1 : ℤ) from rfl]
    norm_num
  rw [harg, hround]

/-- Evaluation of `compute_player_physical_stats` at a present field:
the method reads the stored value, never writes it, and wraps the rounded
result next to the unchanged category. -/
theorem compute_phys_eval (c : PlayerStat) (nm : String) (o1 o2 o3 v : ℤ)
    (hv : c.physicals.lookup nm = some v) :
    c.compute_player_physical_stats nm o1 o2 o3 =
      match round_to_3_leading_digits
          ((pyInt ((v : ℚ) * (11 / 10)) : ℚ) +
            (if c.main_level < 50 then ((c.main_level : ℚ) / 5) * o1
             else if c.main_level < 100 then ((c.main_level : ℚ) / 5) * o2
             else ((c.main_level : ℚ) / 5) *
               ((o3 : ℚ) * (((c.main_level : ℚ) - 100) / 75 + 1)))) with
      | .ok r => .ok (c, r)
      | .error msg => .error msg := by
  unfold PlayerStat.compute_player_physical_stats
  rw [hv]

/-- C10: on any category state with `main_level ≥ 1`, a valid physical
field name holding a positive stored value, and nonnegative tier factors
(the shape of every call in the repository), `compute_player_physical_stats`
returns a computed value next to the category itself — every field of the
category, the named stored physical field included, is unchanged, so two
consecutive calls with the same arguments return the same result. -/
theorem claim_C10_compute_is_pure (c : PlayerStat) (nm : String) (o1 o2 o3 v : ℤ)
    (hm : 1 ≤ c.main_level) (hv : c.physicals.lookup nm = some v) (hv1 : 1 ≤ v)
    (h1 : 0 ≤ o1) (h2 : 0 ≤ o2) (h3 : 0 ≤ o3) :
    ∃ r : ℚ, c.compute_player_physical_stats nm o1 o2 o3 = Except.ok (c, r) := by
  have hm' : (1 : ℚ) ≤ (c.main_level : ℚ) := by exact_mod_cast hm
  have hml5 : (0 : ℚ) ≤ (c.main_level : ℚ) / 5 := div_nonneg (by linarith) (by norm_num)
  have hinc : (0 : ℚ) ≤
      (if c.main_level < 50 then ((c.main_level : ℚ) / 5) * o1
       else if c.main_level < 100 then ((c.main_level : ℚ) / 5) * o2
       else ((c.main_level : ℚ) / 5) *
         ((o3 : ℚ) * (((c.main_level : ℚ) - 100) / 75 + 1))) := by
    split_ifs with hA hB
    · exact mul_nonneg hml5 (by exact_mod_cast h1)
    · exact mul_nonneg hml5 (by exact_mod_cast h2)
    · have h100 : (100 : ℤ) ≤ c.main_level := by omega
      have h100q : (100 : ℚ) ≤ (c.main_level : ℚ) := by exact_mod_cast h100
      have hb1 : (0 : ℚ) ≤ ((c.main_level : ℚ) - 100) / 75 :=
        div_nonneg (by linarith) (by norm_num)
      exact mul_nonneg hml5 (mul_nonneg (by exact_mod_cast h3) (by linarith))
  have hv1q : (1 : ℚ) ≤ (v : ℚ) := by exact_mod_cast hv1
  have hq0 : (0 : ℚ) ≤ (v : ℚ) * (11 / 10) := by nlinarith
  have hfl : (1 : ℤ) ≤ pyInt ((v : ℚ) * (11 / 10)) := by
    rw [pyInt_eq_floor _ hq0, Int.le_floor]
    push_cast
    nlinarith
  have hflq : (1 : ℚ) ≤ (pyInt ((v : ℚ) * (11 / 10)) : ℚ) := by exact_mod_cast hfl
  have hpos : (0 : ℚ) <
      (pyInt ((v : ℚ) * (11 / 10)) : ℚ) +
        (if c.main_level < 50 then ((c.main_level : ℚ) / 5) * o1
         else if c.main_level < 100 then ((c.main_level : ℚ) / 5) * o2
         else ((c.main_level : ℚ) / 5) *
           ((o3 : ℚ) * (((c.main_level : ℚ) - 100) / 75 + 1))) := by linarith
  have heval := compute_phys_eval c nm o1 o2 o3 v hv
  rw [round_to_3_pos _ hpos] at heval
  exact ⟨_, heval⟩

/-- Witness for C10 on the fresh Durability category's `player_stamina`
field with the stamina tier factors `(5, 10, 75)`. -/
theorem claim_C10_witness :
    ∃ r : ℚ, durability_fresh.compute_player_physical_stats "player_stamina" 5 10 75 =
      Except.ok (durability_fresh, r) :=
  claim_C10_compute_is_pure durability_fresh "player_stamina" 5 10 75 100
    (by decide) (by rfl) (by decide) (by decide) (by decide) (by decide)
